import Mathlib

/-!
Verification of the shape-inference rules of `myia/prim/shape_inferrers.py`.

The shape domain and each primitive shape rule are shallowly embedded as
executable Lean definitions.  Python exceptions become `Except Err` results;
the `ANYTHING` wildcard becomes `Dim.any`; a Python dimension tuple becomes a
`List Dim`; the structural shape classes `TupleShape`, `ListShape` and
`ClassShape` become constructors of the `Shape` inductive.
-/

namespace Myia

/-- A single axis extent: a concrete non-negative integer, or the wildcard
`ANYTHING` (a `Named` singleton in Python, whose `==` is identity, so
`ANYTHING == ANYTHING` is true and `ANYTHING == n` is false for an int `n`). -/
inductive Dim where
  | conc : Nat → Dim
  | any : Dim
deriving DecidableEq, Repr

/-- Shape values: `NOSHAPE`, a dimension sequence (a Python tuple of dims),
`TupleShape` (a tuple of child shapes), `ListShape` (one element shape),
`ClassShape` (attribute-name to shape map, modelled as an association list). -/
inductive Shape where
  | noshape : Shape
  | dims : List Dim → Shape
  | tup : List Shape → Shape
  | lst : Shape → Shape
  | cls : List (String × Shape) → Shape
deriving Repr

mutual

/-- Structural equality of shapes (Python `__eq__` of the shape classes). -/
def Shape.beq : Shape → Shape → Bool
  | .noshape, .noshape => true
  | .dims a, .dims b => decide (a = b)
  | .tup a, .tup b => Shape.beqList a b
  | .lst a, .lst b => Shape.beq a b
  | .cls a, .cls b => Shape.beqCls a b
  | _, _ => false

/-- Elementwise equality of shape lists. -/
def Shape.beqList : List Shape → List Shape → Bool
  | [], [] => true
  | a :: as, b :: bs => Shape.beq a b && Shape.beqList as bs
  | _, _ => false

/-- Elementwise equality of attribute maps. -/
def Shape.beqCls : List (String × Shape) → List (String × Shape) → Bool
  | [], [] => true
  | (n1, s1) :: as, (n2, s2) :: bs =>
      decide (n1 = n2) && Shape.beq s1 s2 && Shape.beqCls as bs
  | _, _ => false

end

mutual

theorem Shape.beq_refl : ∀ (a : Shape), Shape.beq a a = true
  | .noshape => rfl
  | .dims a => by simp [Shape.beq]
  | .tup a => by simpa [Shape.beq] using Shape.beqList_refl a
  | .lst a => by simpa [Shape.beq] using Shape.beq_refl a
  | .cls a => by simpa [Shape.beq] using Shape.beqCls_refl a

theorem Shape.beqList_refl : ∀ (l : List Shape), Shape.beqList l l = true
  | [] => rfl
  | a :: as => by
      simp only [Shape.beqList, Bool.and_eq_true]
      exact ⟨Shape.beq_refl a, Shape.beqList_refl as⟩

theorem Shape.beqCls_refl : ∀ (l : List (String × Shape)), Shape.beqCls l l = true
  | [] => rfl
  | (n, s) :: as => by
      simp only [Shape.beqCls, Bool.and_eq_true, decide_eq_true_eq]
      exact ⟨⟨trivial, Shape.beq_refl s⟩, Shape.beqCls_refl as⟩

end

mutual

theorem Shape.eq_of_beq : ∀ {a b : Shape}, Shape.beq a b = true → a = b
  | .noshape, .noshape, _ => rfl
  | .dims a, .dims b, h => by
      simp only [Shape.beq, decide_eq_true_eq] at h; rw [h]
  | .tup a, .tup b, h => by
      rw [Shape.eqList_of_beq (a := a) (b := b) h]
  | .lst a, .lst b, h => by
      rw [Shape.eq_of_beq (a := a) (b := b) h]
  | .cls a, .cls b, h => by
      rw [Shape.eqCls_of_beq (a := a) (b := b) h]

theorem Shape.eqList_of_beq : ∀ {a b : List Shape}, Shape.beqList a b = true → a = b
  | [], [], _ => rfl
  | a :: as, b :: bs, h => by
      simp only [Shape.beqList, Bool.and_eq_true] at h
      rw [Shape.eq_of_beq h.1, Shape.eqList_of_beq h.2]

theorem Shape.eqCls_of_beq :
    ∀ {a b : List (String × Shape)}, Shape.beqCls a b = true → a = b
  | [], [], _ => rfl
  | (n1, s1) :: as, (n2, s2) :: bs, h => by
      simp only [Shape.beqCls, Bool.and_eq_true, decide_eq_true_eq] at h
      rw [h.1.1, Shape.eq_of_beq h.1.2, Shape.eqCls_of_beq h.2]

end

instance : BEq Shape := ⟨Shape.beq⟩

instance : LawfulBEq Shape where
  eq_of_beq := Shape.eq_of_beq
  rfl := Shape.beq_refl _

instance Shape.instDecEq : DecidableEq Shape := fun a b =>
  decidable_of_iff (Shape.beq a b = true)
    ⟨Shape.eq_of_beq, fun h => h ▸ Shape.beq_refl a⟩

/-- The exceptions the shape rules can raise.  `InferenceError` and
`MyiaShapeError` come from `myia.infer`; `AssertionError`, `TypeError` and
`IndexError` are host-level Python exceptions raised by plain code. -/
inductive Err where
  | inferenceError : String → Err
  | myiaShapeError : String → Err
  | assertionError : String → Err
  | typeError : String → Err
  | indexError : Err
deriving DecidableEq, Repr

deriving instance DecidableEq for Except

/-- `isinstance(s, tuple)` on a shape value: only a dimension sequence is a
Python `tuple` (the `TupleShape` / `ListShape` / `ClassShape` classes are not
`tuple` subclasses, and `NOSHAPE` is a `Named`). -/
def Shape.isDims : Shape → Bool
  | .dims _ => true
  | _ => false

/-- The dimension list of a `Shape.dims`; only consulted under an
`isDims` guard (in Python the unguarded access would be the value itself). -/
def Shape.getDims : Shape → List Dim
  | .dims d => d
  | _ => []

/-- The per-axis widening loop of `find_matching_shape`: starting from the
first shape `d0`, each axis where some other shape disagrees is overwritten
with `ANYTHING`.  Only called when every list in `ds` has length
`d0.length`. -/
def mergeDims (d0 : List Dim) (ds : List (List Dim)) : List Dim :=
  (List.range d0.length).map (fun i =>
    let x := d0.getD i Dim.any
    if ds.any (fun d => d.getD i Dim.any != x) then Dim.any else x)

/-- `find_matching_shape(shps)` from `shape_inferrers.py` lines 111-131:
returns the first shape if all are equal; otherwise requires every shape to
be a dimension sequence (`InferenceError "Mismatched element shapes in list"`)
of the first one's length (`InferenceError "Arrays of differing ndim"`), and
widens every disagreeing axis to `ANYTHING`.  `shps[0]` on an empty list
raises a host `IndexError`. -/
def find_matching_shape (l : List Shape) : Except Err Shape :=
  match l with
  | [] => .error .indexError
  | shp :: shps =>
    if shps.all (fun s => s == shp) then .ok shp
    else if !(shp.isDims && shps.all (fun s => s.isDims)) then
      .error (.inferenceError "Mismatched element shapes in list")
    else if !((shps.map Shape.getDims).all (fun d => d.length == shp.getDims.length)) then
      .error (.inferenceError "Arrays of differing ndim")
    else
      .ok (.dims (mergeDims shp.getDims (shps.map Shape.getDims)))

/-- Sequence a list of per-axis results, stopping at the first error (the
Python loop raises at the first failing axis). -/
def collectAxes : List (Except Err Dim) → Except Err (List Dim)
  | [] => .ok []
  | .error e :: _ => .error e
  | .ok d :: rest => (collectAxes rest).map (fun r => d :: r)

/-- One axis of `infer_shape_array_map`: the Python code builds
`entries = set(column); entries.add(ANYTHING)` and branches on its size.
Size 1 means the column held only `ANYTHING`; size 2 means exactly one
distinct concrete value remained after removing `ANYTHING`; otherwise it
raises.  The set of distinct concrete values is computed here as
`(column.filter (· ≠ ANYTHING)).dedup`. -/
def array_map_axis (col : List Dim) : Except Err Dim :=
  match (col.filter (fun d => d != Dim.any)).dedup with
  | [] => .ok Dim.any
  | [x] => .ok x
  | _ => .error (.myiaShapeError "Expect same shapes for array_map")

/-- `infer_shape_array_map` (lines 287-306) on the already-awaited operand
shapes (each an array's dimension sequence).  `shape0, *rest = shapes` raises
a host error when no array argument is given; a rank mismatch between any
operand and the first raises `MyiaShapeError`; otherwise the result is
computed axis by axis over `zip(*shapes)` (columns, all of length
`shape0.length` once the rank check passed). -/
def infer_shape_array_map (shapes : List (List Dim)) : Except Err (List Dim) :=
  match shapes with
  | [] => .error (.typeError "not enough values to unpack")
  | shape0 :: rest =>
    if rest.any (fun s => s.length != shape0.length) then
      .error (.myiaShapeError "Expect same shapes for array_map")
    else
      collectAxes ((List.range shape0.length).map (fun i =>
        array_map_axis ((shape0 :: rest).map (fun s => s.getD i Dim.any))))

/-- `infer_shape_array_reduce` (lines 323-341) on the array's shape `shp_i`
and the target-shape constant `shp_v` (`none` models the wildcard `ANYTHING`
value).  A wildcard target raises `AssertionError`; otherwise
`delta = len(shp_i) - len(shp_v)` must be ≥ 0 and each trailing source axis
must be compatible with the target axis (`1 != s1 != ANYTHING and
1 != s2 != ANYTHING and s1 != s2` is the incompatibility test). -/
def infer_shape_array_reduce (shp_i : List Dim) (shp_v : Option (List Dim)) :
    Except Err (List Dim) :=
  match shp_v with
  | none => .error (.assertionError "We currently require knowing the shape for reduce.")
  | some v =>
    if shp_i.length < v.length then
      .error (.myiaShapeError "Incompatible dims for reduce")
    else if ((shp_i.drop (shp_i.length - v.length)).zip v).any (fun p =>
        p.1 != Dim.conc 1 && p.1 != Dim.any &&
        p.2 != Dim.conc 1 && p.2 != Dim.any && p.1 != p.2) then
      .error (.myiaShapeError "Incompatible dims for reduce")
    else
      .ok v

/-- `prod` over a dimension sequence (`reduce(operator.mul, iterable, 1)`).
In the source it is applied only to wildcard-free sequences (the `reshape`
rule guards it with `all(s is not ANYTHING ...)`), so the value used for
`Dim.any` is never consulted; `1` is used as a neutral placeholder. -/
def dimProd (l : List Dim) : Nat :=
  l.foldl (fun acc d => acc * (match d with | .conc n => n | .any => 1)) 1

/-- `infer_shape_reshape` (lines 365-378): the target-shape constant is
either a concrete dimension tuple or the wildcard `ANYTHING` (`none`), in
which case it is replaced by `(ANYTHING,) * len(shp_t.elements)` where
`rank` is the number of elements of the target's static tuple type.  If both
the (replaced) target and the source shape are wildcard-free and their
products differ, raise `MyiaShapeError`; otherwise return the target. -/
def infer_shape_reshape (shp_value : Option (List Dim)) (rank : Nat)
    (v_shp : List Dim) : Except Err (List Dim) :=
  let shp := match shp_value with
    | none => List.replicate rank Dim.any
    | some s => s
  if shp.all (fun s => s != Dim.any) && v_shp.all (fun s => s != Dim.any) &&
      dimProd shp != dimProd v_shp then
    .error (.myiaShapeError "Cannot change the total number of elements in reshape")
  else
    .ok shp

/-- `infer_shape_dot` (lines 381-393) on the two operands' shapes: both must
be rank 2; the inner dimensions must agree unless either is `ANYTHING`; the
result is `(a_shp[0], b_shp[1])`. -/
def infer_shape_dot (a_shp b_shp : List Dim) : Except Err (List Dim) :=
  if a_shp.length != 2 || b_shp.length != 2 then
    .error (.myiaShapeError "dot needs matrix inputs")
  else if a_shp.getD 1 Dim.any != b_shp.getD 0 Dim.any &&
      a_shp.getD 1 Dim.any != Dim.any && b_shp.getD 0 Dim.any != Dim.any then
    .error (.myiaShapeError "Incompatible shapes in dot")
  else
    .ok [a_shp.getD 0 Dim.any, b_shp.getD 1 Dim.any]

/-- The value track's answer for the index argument of `tuple_getitem`: a
concrete integer constant, or the wildcard `ANYTHING`. -/
inductive IdxValue where
  | intV : Int → IdxValue
  | anyV : IdxValue
deriving DecidableEq, Repr

/-- Python tuple subscription `t[i]` with an integer index: a negative index
counts from the end; out of range raises `IndexError`. -/
def pyTupleIndex (elems : List Shape) (i : Int) : Except Err Shape :=
  let j : Int := if i < 0 then i + elems.length else i
  if 0 ≤ j ∧ j < (elems.length : Int) then
    .ok (elems.getD j.toNat Shape.noshape)
  else
    .error .indexError

/-- `infer_shape_tuple_getitem` (lines 220-225): the body is just
`seq_sh.shape[idx_v]`.  When the callee's shape is a `TupleShape` and the
index value is the wildcard `ANYTHING` (a `Named`), Python's tuple
subscription raises `TypeError: tuple indices must be integers` — there is
no explicit wildcard check in this rule.  A non-`TupleShape` callee shape
raises a host error as well (`AttributeError`/`TypeError`, collapsed here
into one `typeError`). -/
def infer_shape_tuple_getitem (seq_sh : Shape) (idx_v : IdxValue) : Except Err Shape :=
  match seq_sh with
  | .tup elems =>
    match idx_v with
    | .anyV => .error (.typeError "tuple indices must be integers")
    | .intV i => pyTupleIndex elems i
  | _ => .error (.typeError "shape value is not subscriptable")

/-- The value track's answer for an `if`/`switch` condition: Python tests
`v is True`, `v is False`, `v is ANYTHING` in order and otherwise raises
`AssertionError`; `other` stands for any remaining constant. -/
inductive CondV where
  | vtrue : CondV
  | vfalse : CondV
  | vany : CondV
  | vother : CondV
deriving DecidableEq, Repr

/-- Modelled from the spec: `Track.assert_same` (defined in `myia/infer.py`,
not part of the sources here) merges the two branch results of an `if` or
`switch` whose condition is unknown — "structurally-equal results pass; for
dimension sequences, equal length required and an axis-by-axis comparison
admits `ANYTHING` on either side as compatible with any concrete value,
producing a conflict failure if two *different* concrete values collide on
the same axis"; a conflict raises a "branches disagree" error. -/
def assert_same (r1 r2 : Except Err Shape) : Except Err Shape := do
  let s1 ← r1
  let s2 ← r2
  if s1 = s2 then
    .ok s1
  else
    match s1, s2 with
    | .dims d1, .dims d2 =>
      if d1.length = d2.length then
        match (d1.zip d2).mapM (fun p =>
            match p with
            | (Dim.any, y) => some y
            | (x, Dim.any) => some x
            | (x, y) => if x = y then some x else none) with
        | some m => .ok (.dims m)
        | none => .error (.inferenceError "The branches of if/switch disagree.")
      else .error (.inferenceError "The branches of if/switch disagree.")
    | _, _ => .error (.inferenceError "The branches of if/switch disagree.")

/-- `infer_shape_if` (lines 242-259).  `tb`/`fb` are the branch *functions*;
awaiting `tb['shape']` yields that function's shape inferrer (a thunk here),
and only *calling* the inferrer forces the branch body's shape inference.
The rule awaits both inferrers, then the condition's value, and calls only
the inferrer(s) the condition demands. -/
def infer_shape_if (cond_value : Unit → Except Err CondV)
    (tb_shape fb_shape : Unit → Except Err (Unit → Except Err Shape)) :
    Except Err Shape := do
  let tb_inf ← tb_shape ()
  let fb_inf ← fb_shape ()
  let v ← cond_value ()
  match v with
  | .vtrue => tb_inf ()
  | .vfalse => fb_inf ()
  | .vany => assert_same (tb_inf ()) (fb_inf ())
  | .vother => .error (.assertionError "Invalid condition value for if.")

/-- `infer_shape_switch` (lines 262-277).  `tb`/`fb` are branch *values*;
`await tb['shape']` (a thunk here) directly forces that branch value's shape
inference, and the rule awaits only the branch(es) the condition demands. -/
def infer_shape_switch (cond_value : Unit → Except Err CondV)
    (tb_shape fb_shape : Unit → Except Err Shape) : Except Err Shape := do
  let v ← cond_value ()
  match v with
  | .vtrue => tb_shape ()
  | .vfalse => fb_shape ()
  | .vany => assert_same (tb_shape ()) (fb_shape ())
  | .vother => .error (.assertionError "Invalid condition value for switch.")

/-- The host-literal fragment of the values `ShapeTrack.from_value` receives:
tuples, lists, array-like objects carrying a `.shape` attribute, and opaque
scalars without one.  (The remaining arms of `from_value` — `Primitive`,
`Graph`, `MetaGraph` and dataclass values — return inferrer objects or
recurse into these literal arms and are outside the shape-value domain.) -/
inductive HostValue where
  | tupleV : List HostValue → HostValue
  | listV : List HostValue → HostValue
  | arrayV : List Dim → HostValue
  | otherV : HostValue
deriving Repr

mutual

/-- `ShapeTrack.from_value` (lines 161-190), literal arms: a tuple becomes a
`TupleShape` of the recursively inferred element shapes; a list first infers
every element's shape, returns `ListShape(NOSHAPE)` when there are no
elements, and otherwise wraps `find_matching_shape` of the element shapes;
an object with a `.shape` attribute yields that shape; anything else yields
`NOSHAPE`. -/
def ShapeTrack.from_value : HostValue → Except Err Shape
  | .tupleV es => do
      let shs ← ShapeTrack.from_value_list es
      .ok (.tup shs)
  | .listV es => do
      let shps ← ShapeTrack.from_value_list es
      if shps.length = 0 then
        .ok (.lst .noshape)
      else do
        let m ← find_matching_shape shps
        .ok (.lst m)
  | .arrayV d => .ok (.dims d)
  | .otherV => .ok .noshape

/-- Elementwise `from_value` over the children of a literal, stopping at the
first error (the Python list comprehension raises at the first failure). -/
def ShapeTrack.from_value_list : List HostValue → Except Err (List Shape)
  | [] => .ok []
  | v :: vs => do
      let s ← ShapeTrack.from_value v
      let ss ← ShapeTrack.from_value_list vs
      .ok (s :: ss)

end

/-- Discriminator used below: did a rule raise `InferenceError` (as opposed to
a host-level exception or a success)? -/
def raisedInferenceError : Except Err Shape → Bool
  | .error (.inferenceError _) => true
  | _ => false

/-! ## Theorems -/

/-- Claim C10: `ShapeTrack.from_value` applied to an empty host list succeeds
and returns `ListShape(NOSHAPE)`; in particular it raises none of the
mismatched-element errors, since the element-shape merge is never reached. -/
theorem from_value_empty_list :
    ShapeTrack.from_value (HostValue.listV []) = .ok (Shape.lst Shape.noshape) := rfl

/-- Claim C2, counterexample: `find_matching_shape` on `[(4, ANYTHING), (4, 7)]`
returns `(4, ANYTHING)` — not `(4, 7)` as the claim states — and on
`[(4, 7), (4, 9)]` it succeeds with `(4, ANYTHING)` instead of failing. -/
theorem fms_wildcard_merge_counterexample :
    find_matching_shape [Shape.dims [Dim.conc 4, Dim.any], Shape.dims [Dim.conc 4, Dim.conc 7]]
        = .ok (Shape.dims [Dim.conc 4, Dim.any]) ∧
    Shape.dims [Dim.conc 4, Dim.any] ≠ Shape.dims [Dim.conc 4, Dim.conc 7] ∧
    find_matching_shape [Shape.dims [Dim.conc 4, Dim.conc 7], Shape.dims [Dim.conc 4, Dim.conc 9]]
        = .ok (Shape.dims [Dim.conc 4, Dim.any]) := by decide

/-- Claim C2, amended: `find_matching_shape` applied to the dimension
sequences `(4, ANYTHING)` and `(4, 7)` yields `(4, ANYTHING)`, and applied to
`(4, 7)` and `(4, 9)` it also succeeds with `(4, ANYTHING)`: any axis on which
the inputs disagree — wildcard against concrete as well as two different
concrete values — is widened to the wildcard rather than resolved or
rejected. -/
theorem fms_wildcard_merge_widens :
    find_matching_shape [Shape.dims [Dim.conc 4, Dim.any], Shape.dims [Dim.conc 4, Dim.conc 7]]
        = .ok (Shape.dims [Dim.conc 4, Dim.any]) ∧
    find_matching_shape [Shape.dims [Dim.conc 4, Dim.conc 7], Shape.dims [Dim.conc 4, Dim.conc 9]]
        = .ok (Shape.dims [Dim.conc 4, Dim.any]) := by decide

/-- Claim C4: merging a list of three identical shapes is the identity —
`find_matching_shape [s, s, s] = s` for every shape `s`, of any structural
kind (`NOSHAPE`, dimension sequence, `TupleShape`, `ListShape`,
`ClassShape`). -/
theorem find_matching_shape_idempotent (s : Shape) :
    find_matching_shape [s, s, s] = .ok s := by
  simp [find_matching_shape]

/-- Claim C1: in the `if` and `switch` shape rules, a condition whose value
track resolves to the concrete constant `True` makes the result exactly the
true branch's shape, for *every* false branch — in particular a false branch
whose inference raises a shape error never surfaces, because it is never
forced.  Symmetrically for `False` and the true branch.  (`tb_inf`/`fb_inf`
are the branch-function inferrers of `if`; `tbs`/`fbs` the branch-value shape
computations of `switch`.) -/
theorem if_switch_static_cond_elides_dead_branch
    (tb_inf fb_inf tbs fbs : Unit → Except Err Shape) :
    infer_shape_if (fun _ => .ok .vtrue) (fun _ => .ok tb_inf) (fun _ => .ok fb_inf)
        = tb_inf () ∧
    infer_shape_if (fun _ => .ok .vfalse) (fun _ => .ok tb_inf) (fun _ => .ok fb_inf)
        = fb_inf () ∧
    infer_shape_switch (fun _ => .ok .vtrue) tbs fbs = tbs () ∧
    infer_shape_switch (fun _ => .ok .vfalse) tbs fbs = fbs () :=
  ⟨rfl, rfl, rfl, rfl⟩

/-- Claim C1, witness: with a statically true condition and a false branch
whose inference raises `MyiaShapeError`, both rules succeed with the true
branch's shape. -/
theorem if_switch_static_cond_elides_dead_branch_witness :
    infer_shape_if (fun _ => .ok .vtrue)
        (fun _ => .ok (fun _ => .ok (Shape.dims [Dim.conc 4])))
        (fun _ => .ok (fun _ => .error (.myiaShapeError "dead branch error")))
        = .ok (Shape.dims [Dim.conc 4]) ∧
    infer_shape_switch (fun _ => .ok .vtrue)
        (fun _ => .ok (Shape.dims [Dim.conc 4]))
        (fun _ => .error (.myiaShapeError "dead branch error"))
        = .ok (Shape.dims [Dim.conc 4]) :=
  ⟨(if_switch_static_cond_elides_dead_branch
      (fun _ => .ok (Shape.dims [Dim.conc 4]))
      (fun _ => .error (.myiaShapeError "dead branch error"))
      (fun _ => .ok (Shape.dims [Dim.conc 4]))
      (fun _ => .error (.myiaShapeError "dead branch error"))).1,
   (if_switch_static_cond_elides_dead_branch
      (fun _ => .ok (Shape.dims [Dim.conc 4]))
      (fun _ => .error (.myiaShapeError "dead branch error"))
      (fun _ => .ok (Shape.dims [Dim.conc 4]))
      (fun _ => .error (.myiaShapeError "dead branch error"))).2.2.1⟩

/-- Claim C9, counterexample: the `tuple_getitem` shape rule applied to a
`TupleShape` with the wildcard `ANYTHING` as index value raises Python's host
`TypeError` (the rule indexes the tuple directly, with no wildcard check) —
not an `InferenceError` as the claim states. -/
theorem tuple_getitem_wildcard_counterexample :
    infer_shape_tuple_getitem (Shape.tup [Shape.noshape]) IdxValue.anyV
        = .error (.typeError "tuple indices must be integers") ∧
    raisedInferenceError
        (infer_shape_tuple_getitem (Shape.tup [Shape.noshape]) IdxValue.anyV) = false :=
  ⟨rfl, rfl⟩

/-- Claim C9, amended: the `tuple_getitem` shape rule indexes the callee's
`TupleShape` directly with the index argument's value: a wildcard `ANYTHING`
index raises a host-level `TypeError` (tuple indices must be integers) — not
an `InferenceError` — and a concrete in-range index returns exactly the
element of the `TupleShape` at that index. -/
theorem tuple_getitem_spec (elems : List Shape) (i : Nat) (h : i < elems.length) :
    infer_shape_tuple_getitem (Shape.tup elems) (IdxValue.intV i)
        = .ok (elems.getD i Shape.noshape) ∧
    infer_shape_tuple_getitem (Shape.tup elems) IdxValue.anyV
        = .error (.typeError "tuple indices must be integers") := by
  refine ⟨?_, rfl⟩
  simp only [infer_shape_tuple_getitem, pyTupleIndex]
  have h0 : ¬((i : Int) < 0) := by omega
  rw [if_neg h0]
  have hin : (0 : Int) ≤ (i : Int) ∧ (i : Int) < (elems.length : Int) := by
    constructor
    · exact Int.natCast_nonneg i
    · exact_mod_cast h
  rw [if_pos hin]
  simp

/-- Claim C9, witness for the amended statement at a concrete tuple shape and
index. -/
theorem tuple_getitem_spec_witness :
    infer_shape_tuple_getitem (Shape.tup [Shape.noshape, Shape.dims [Dim.conc 3]])
        (IdxValue.intV 1) = .ok (Shape.dims [Dim.conc 3]) := by
  have h := tuple_getitem_spec [Shape.noshape, Shape.dims [Dim.conc 3]] 1 (by decide)
  simpa using h.1

/-- The incompatibility test of `array_reduce` on one pair of (source,
target) axes, written as a proposition: `1 != s1 != ANYTHING and
1 != s2 != ANYTHING and s1 != s2`. -/
def badPair (p : Dim × Dim) : Prop :=
  p.1 ≠ Dim.conc 1 ∧ p.1 ≠ Dim.any ∧ p.2 ≠ Dim.conc 1 ∧ p.2 ≠ Dim.any ∧ p.1 ≠ p.2

instance : DecidablePred badPair := fun p => by unfold badPair; infer_instance

/-- Claim C5: the `array_reduce` shape rule always fails when the target
shape value is the wildcard `ANYTHING`; with a known target shape `v` it
fails exactly when `delta = rank(source) − rank(target)` is negative or some
trailing source axis `s1` and target axis `s2` satisfy `s1 ∉ {1, ANYTHING}`,
`s2 ∉ {1, ANYTHING}` and `s1 ≠ s2`, and otherwise returns the target
shape. -/
theorem array_reduce_spec (shp_i v : List Dim) :
    (∃ e, infer_shape_array_reduce shp_i none = .error e) ∧
    ((∃ e, infer_shape_array_reduce shp_i (some v) = .error e) ↔
      (shp_i.length < v.length ∨
        ∃ p ∈ (shp_i.drop (shp_i.length - v.length)).zip v, badPair p)) ∧
    (infer_shape_array_reduce shp_i (some v) = .ok v ↔
      ¬(shp_i.length < v.length ∨
        ∃ p ∈ (shp_i.drop (shp_i.length - v.length)).zip v, badPair p)) := by
  refine ⟨⟨_, rfl⟩, ?_, ?_⟩ <;>
  · have hpred : ∀ p : Dim × Dim,
        (p.1 != Dim.conc 1 && p.1 != Dim.any &&
         (p.2 != Dim.conc 1) && (p.2 != Dim.any) && (p.1 != p.2)) = true ↔ badPair p := by
      intro p
      simp [badPair, and_assoc]
    by_cases h1 : shp_i.length < v.length
    · simp [infer_shape_array_reduce, h1]
    · by_cases h2 : ∃ p ∈ (shp_i.drop (shp_i.length - v.length)).zip v, badPair p
      · have hany : ((shp_i.drop (shp_i.length - v.length)).zip v).any (fun p =>
            p.1 != Dim.conc 1 && p.1 != Dim.any &&
            (p.2 != Dim.conc 1) && (p.2 != Dim.any) && (p.1 != p.2)) = true := by
          rw [List.any_eq_true]
          obtain ⟨p, hp, hbad⟩ := h2
          exact ⟨p, hp, (hpred p).mpr hbad⟩
        simp [infer_shape_array_reduce, h1, hany, h2]
      · have hany : ((shp_i.drop (shp_i.length - v.length)).zip v).any (fun p =>
            p.1 != Dim.conc 1 && p.1 != Dim.any &&
            (p.2 != Dim.conc 1) && (p.2 != Dim.any) && (p.1 != p.2)) = false := by
          rw [Bool.eq_false_iff]
          intro hc
          rw [List.any_eq_true] at hc
          obtain ⟨p, hp, hbad⟩ := hc
          exact h2 ⟨p, hp, (hpred p).mp hbad⟩
        simp [infer_shape_array_reduce, h1, hany, h2]

/-- Claim C5, witness: reducing a source of shape `(2, 3)` to the known
target shape `(3,)` succeeds with `(3,)`, and the wildcard target fails. -/
theorem array_reduce_spec_witness :
    infer_shape_array_reduce [Dim.conc 2, Dim.conc 3] (some [Dim.conc 3])
        = .ok [Dim.conc 3] :=
  (array_reduce_spec [Dim.conc 2, Dim.conc 3] [Dim.conc 3]).2.2.mpr (by decide)

/-- Claim C6: the `dot` shape rule fails when either operand shape is not of
rank 2; on rank-2 shapes `[a0, a1]` and `[b0, b1]` it fails when `a1 ≠ b0`
with neither being `ANYTHING`, and otherwise returns `(a0, b1)`; in
particular `(3,4) · (4,5) = (3,5)` and `(3,4) · (5,6)` fails. -/
theorem dot_spec (a b : List Dim) :
    ((a.length ≠ 2 ∨ b.length ≠ 2) → ∃ e, infer_shape_dot a b = .error e) ∧
    (∀ a0 a1 b0 b1, a = [a0, a1] → b = [b0, b1] →
      ((a1 ≠ b0 ∧ a1 ≠ Dim.any ∧ b0 ≠ Dim.any) →
          ∃ e, infer_shape_dot a b = .error e) ∧
      ((a1 = b0 ∨ a1 = Dim.any ∨ b0 = Dim.any) →
          infer_shape_dot a b = .ok [a0, b1])) ∧
    infer_shape_dot [Dim.conc 3, Dim.conc 4] [Dim.conc 4, Dim.conc 5]
        = .ok [Dim.conc 3, Dim.conc 5] ∧
    (∃ e, infer_shape_dot [Dim.conc 3, Dim.conc 4] [Dim.conc 5, Dim.conc 6]
        = .error e) := by
  refine ⟨?_, ?_, by decide, ⟨.myiaShapeError "Incompatible shapes in dot", by decide⟩⟩
  · intro h
    refine ⟨.myiaShapeError "dot needs matrix inputs", ?_⟩
    have hb : (a.length != 2 || b.length != 2) = true := by
      rcases h with h | h <;> simp [h]
    simp [infer_shape_dot, hb]
  · intro a0 a1 b0 b1 ha hb
    subst ha hb
    constructor
    · rintro ⟨h1, h2, h3⟩
      refine ⟨.myiaShapeError "Incompatible shapes in dot", ?_⟩
      simp [infer_shape_dot, List.getD, h1, h2, h3]
    · rintro (h | h | h) <;> subst h <;> simp [infer_shape_dot, List.getD]

/-- Claim C6, witness: rank-2 inputs `(3, ANYTHING)` and `(4, 5)` are
compatible through the wildcard inner dimension and yield `(3, 5)`. -/
theorem dot_spec_witness :
    infer_shape_dot [Dim.conc 3, Dim.any] [Dim.conc 4, Dim.conc 5]
        = .ok [Dim.conc 3, Dim.conc 5] :=
  ((dot_spec [Dim.conc 3, Dim.any] [Dim.conc 4, Dim.conc 5]).2.1
      (Dim.conc 3) Dim.any (Dim.conc 4) (Dim.conc 5) rfl rfl).2
    (Or.inr (Or.inl rfl))

/-- Claim C7: the `reshape` shape rule fails if and only if both the target
and the source shape contain no wildcard axis and their element-count
products differ; whenever either contains an `ANYTHING` axis (or the products
agree) it succeeds, returning the target shape.  A whole-wildcard target
value behaves as a target of `rank` wildcard axes.  In particular source
`(2,3)` with target `(3,2)` succeeds and source `(2,3)` with target `(4,2)`
fails. -/
theorem reshape_spec (tgt src : List Dim) (rank : Nat) :
    ((∃ e, infer_shape_reshape (some tgt) rank src = .error e) ↔
      ((∀ d ∈ tgt, d ≠ Dim.any) ∧ (∀ d ∈ src, d ≠ Dim.any) ∧
        dimProd tgt ≠ dimProd src)) ∧
    (¬((∀ d ∈ tgt, d ≠ Dim.any) ∧ (∀ d ∈ src, d ≠ Dim.any) ∧
        dimProd tgt ≠ dimProd src) →
      infer_shape_reshape (some tgt) rank src = .ok tgt) ∧
    (infer_shape_reshape none rank src
        = infer_shape_reshape (some (List.replicate rank Dim.any)) rank src) ∧
    infer_shape_reshape (some [Dim.conc 3, Dim.conc 2]) 0 [Dim.conc 2, Dim.conc 3]
        = .ok [Dim.conc 3, Dim.conc 2] ∧
    (∃ e, infer_shape_reshape (some [Dim.conc 4, Dim.conc 2]) 0 [Dim.conc 2, Dim.conc 3]
        = .error e) := by
  have hcond : ((tgt.all (fun s => s != Dim.any) && src.all (fun s => s != Dim.any) &&
      (dimProd tgt != dimProd src)) = true) ↔
      ((∀ d ∈ tgt, d ≠ Dim.any) ∧ (∀ d ∈ src, d ≠ Dim.any) ∧
        dimProd tgt ≠ dimProd src) := by
    simp [List.all_eq_true, and_assoc]
  refine ⟨?_, ?_, rfl, by decide,
    ⟨.myiaShapeError "Cannot change the total number of elements in reshape", by decide⟩⟩
  · by_cases h : (∀ d ∈ tgt, d ≠ Dim.any) ∧ (∀ d ∈ src, d ≠ Dim.any) ∧
        dimProd tgt ≠ dimProd src
    · have hb := hcond.mpr h
      simp [infer_shape_reshape, hb, h]
      exact ⟨h.1, h.2.1⟩
    · have hb : (tgt.all (fun s => s != Dim.any) && src.all (fun s => s != Dim.any) &&
          (dimProd tgt != dimProd src)) = false := by
        rw [Bool.eq_false_iff]
        intro hc
        exact h (hcond.mp hc)
      simp [infer_shape_reshape, hb, h]
  · intro h
    have hb : (tgt.all (fun s => s != Dim.any) && src.all (fun s => s != Dim.any) &&
        (dimProd tgt != dimProd src)) = false := by
      rw [Bool.eq_false_iff]
      intro hc
      exact h (hcond.mp hc)
    simp [infer_shape_reshape, hb]

/-- Claim C7, witness: a target containing a wildcard axis skips the product
check even though the concrete products could not match. -/
theorem reshape_spec_witness :
    infer_shape_reshape (some [Dim.any, Dim.conc 5]) 0 [Dim.conc 2, Dim.conc 3]
        = .ok [Dim.any, Dim.conc 5] :=
  (reshape_spec [Dim.any, Dim.conc 5] [Dim.conc 2, Dim.conc 3] 0).2.1 (by decide)

theorem mergeDims_length (d0 : List Dim) (ds : List (List Dim)) :
    (mergeDims d0 ds).length = d0.length := by
  simp [mergeDims]

theorem mergeDims_getD (d0 : List Dim) (ds : List (List Dim)) (i : Nat)
    (h : i < d0.length) :
    (mergeDims d0 ds).getD i Dim.any =
      if ds.any (fun d => d.getD i Dim.any != d0.getD i Dim.any) then Dim.any
      else d0.getD i Dim.any := by
  have hl : i < (mergeDims d0 ds).length := by
    rw [mergeDims_length]; exact h
  rw [List.getD_eq_getElem _ _ hl]
  simp only [mergeDims]
  rw [List.getElem_map]
  simp

/-- Claim C3: on a non-empty list of shapes, `find_matching_shape` returns
the first shape when all are equal; otherwise, when every shape is a
dimension sequence of the first one's length, it returns a dimension
sequence carrying the common value on every axis where all elements agree
and `ANYTHING` on every axis where some element disagrees; otherwise it
raises an `InferenceError` (mismatched structural kind, or dimension
sequences of differing length). -/
theorem find_matching_shape_spec (shp : Shape) (shps : List Shape) :
    ((∀ s ∈ shps, s = shp) → find_matching_shape (shp :: shps) = .ok shp) ∧
    (¬(∀ s ∈ shps, s = shp) →
      ((shp.isDims = false ∨ (∃ s ∈ shps, s.isDims = false)) →
        find_matching_shape (shp :: shps) =
          .error (.inferenceError "Mismatched element shapes in list")) ∧
      (∀ d0, shp = Shape.dims d0 →
        (∀ s ∈ shps, s.isDims = true) →
        ((∃ s ∈ shps, s.getDims.length ≠ d0.length) →
          find_matching_shape (shp :: shps) =
            .error (.inferenceError "Arrays of differing ndim")) ∧
        ((∀ s ∈ shps, s.getDims.length = d0.length) →
          ∃ r, find_matching_shape (shp :: shps) = .ok (Shape.dims r) ∧
            r.length = d0.length ∧
            ∀ i, i < d0.length →
              ((∀ s ∈ shps, s.getDims.getD i Dim.any = d0.getD i Dim.any) →
                r.getD i Dim.any = d0.getD i Dim.any) ∧
              ((∃ s ∈ shps, s.getDims.getD i Dim.any ≠ d0.getD i Dim.any) →
                r.getD i Dim.any = Dim.any)))) := by
  by_cases hall : ∀ s ∈ shps, s = shp
  · refine ⟨fun _ => ?_, fun hc => absurd hall hc⟩
    have hb : shps.all (fun s => s == shp) = true := by
      rw [List.all_eq_true]
      intro s hs
      exact beq_iff_eq.mpr (hall s hs)
    simp [find_matching_shape, hb]
  · have hb : shps.all (fun s => s == shp) = false := by
      rw [Bool.eq_false_iff]
      intro hc
      rw [List.all_eq_true] at hc
      exact hall (fun s hs => beq_iff_eq.mp (hc s hs))
    refine ⟨fun h => absurd h hall, fun _ => ⟨?_, ?_⟩⟩
    · intro hk
      have hkb : (shp.isDims && shps.all (fun s => s.isDims)) = false := by
        rcases hk with hk | ⟨s, hs, hsd⟩
        · simp [hk]
        · have hf : shps.all (fun s => s.isDims) = false := by
            rw [Bool.eq_false_iff]
            intro hc
            rw [List.all_eq_true] at hc
            rw [hc s hs] at hsd
            exact Bool.true_eq_false.mp hsd
          simp [hf]
      simp [find_matching_shape, hb, hkb]
    · intro d0 hd0 hdall
      subst hd0
      have hkb : ((Shape.dims d0).isDims && shps.all (fun s => s.isDims)) = true := by
        simp [Shape.isDims, List.all_eq_true]
        exact hdall
      constructor
      · rintro ⟨s, hs, hlen⟩
        have hlb : ((shps.map Shape.getDims).all
            (fun d => d.length == (Shape.dims d0).getDims.length)) = false := by
          rw [Bool.eq_false_iff]
          intro hc
          rw [List.all_eq_true] at hc
          have := hc s.getDims (List.mem_map_of_mem _ hs)
          simp only [Shape.getDims, Nat.beq_eq_true_eq] at this
          exact hlen this
        simp [find_matching_shape, hb, hkb, hlb]
      · intro hlens
        have hlb : ((shps.map Shape.getDims).all
            (fun d => d.length == (Shape.dims d0).getDims.length)) = true := by
          rw [List.all_eq_true]
          intro d hd
          obtain ⟨s, hs, rfl⟩ := List.mem_map.mp hd
          exact beq_iff_eq.mpr (hlens s hs)
        refine ⟨mergeDims d0 (shps.map Shape.getDims), ?_,
            mergeDims_length _ _, ?_⟩
        · simp [find_matching_shape, hb, hkb, hlb, Shape.getDims]
          exact fun x hx => hlens x hx
        · intro i hi
          have hgetd := mergeDims_getD d0 (shps.map Shape.getDims) i hi
          constructor
          · intro hagree
            have hany : ((shps.map Shape.getDims).any
                (fun d => d.getD i Dim.any != d0.getD i Dim.any)) = false := by
              rw [Bool.eq_false_iff]
              intro hc
              rw [List.any_eq_true] at hc
              obtain ⟨d, hd, hne⟩ := hc
              obtain ⟨s, hs, rfl⟩ := List.mem_map.mp hd
              rw [bne_iff_ne] at hne
              exact hne (hagree s hs)
            rw [hgetd, hany]
            simp
          · rintro ⟨s, hs, hne⟩
            have hany : ((shps.map Shape.getDims).any
                (fun d => d.getD i Dim.any != d0.getD i Dim.any)) = true := by
              rw [List.any_eq_true]
              exact ⟨s.getDims, List.mem_map_of_mem _ hs, bne_iff_ne.mpr hne⟩
            rw [hgetd, hany]
            simp

/-- Claim C3, witness: `[(4, 7), NOSHAPE]` are equal-free shapes of different
structural kinds, so the merge raises the mismatched-element
`InferenceError`; `[(4,), (4, 7)]` are dimension sequences of different
lengths, raising the differing-ndim `InferenceError`; `[(4, 7), (4, 9)]`
merges to `(4, ANYTHING)`. -/
theorem find_matching_shape_spec_witness :
    find_matching_shape [Shape.dims [Dim.conc 4, Dim.conc 7], Shape.noshape] =
      .error (.inferenceError "Mismatched element shapes in list") ∧
    find_matching_shape [Shape.dims [Dim.conc 4], Shape.dims [Dim.conc 4, Dim.conc 7]] =
      .error (.inferenceError "Arrays of differing ndim") := by
  constructor
  · exact ((find_matching_shape_spec (Shape.dims [Dim.conc 4, Dim.conc 7])
      [Shape.noshape]).2 (by decide)).1 (Or.inr ⟨Shape.noshape, by decide, rfl⟩)
  · exact ((((find_matching_shape_spec (Shape.dims [Dim.conc 4])
      [Shape.dims [Dim.conc 4, Dim.conc 7]]).2 (by decide)).2
      [Dim.conc 4] rfl (by decide)).1
      ⟨Shape.dims [Dim.conc 4, Dim.conc 7], by decide, by decide⟩)

theorem collectAxes_ok_length :
    ∀ {l : List (Except Err Dim)} {r : List Dim},
      collectAxes l = .ok r → r.length = l.length
  | [], r, h => by
      simp [collectAxes] at h
      simp [← h]
  | .error e :: rest, r, h => by
      simp [collectAxes] at h
  | .ok d :: rest, r, h => by
      simp only [collectAxes] at h
      cases hc : collectAxes rest with
      | error e => rw [hc] at h; simp [Except.map] at h
      | ok r0 =>
          rw [hc] at h
          simp [Except.map] at h
          rw [← h]
          simp [collectAxes_ok_length hc]

theorem collectAxes_ok_getD :
    ∀ {l : List (Except Err Dim)} {r : List Dim},
      collectAxes l = .ok r → ∀ i, i < l.length →
        l.getD i (.ok Dim.any) = .ok (r.getD i Dim.any)
  | [], r, _, i, hi => by simp at hi
  | .error e :: rest, r, h, i, hi => by
      simp [collectAxes] at h
  | .ok d :: rest, r, h, i, hi => by
      simp only [collectAxes] at h
      cases hc : collectAxes rest with
      | error e => rw [hc] at h; simp [Except.map] at h
      | ok r0 =>
          rw [hc] at h
          simp [Except.map] at h
          subst h
          cases i with
          | zero => simp
          | succ j =>
              simp only [List.getD_cons_succ]
              exact collectAxes_ok_getD hc j (by simpa using hi)

theorem collectAxes_error_iff (l : List (Except Err Dim)) :
    (∃ e, collectAxes l = .error e) ↔ ∃ x ∈ l, ∃ e, x = .error e := by
  induction l with
  | nil => simp [collectAxes]
  | cons x rest ih =>
      cases x with
      | error e => simp [collectAxes]
      | ok d =>
          simp only [collectAxes]
          cases hc : collectAxes rest with
          | error e =>
              simp [Except.map]
              have : ∃ e, collectAxes rest = .error e := ⟨e, hc⟩
              rw [ih] at this
              obtain ⟨y, hy, hz⟩ := this
              exact ⟨y, hy, hz⟩
          | ok r0 =>
              simp [Except.map]
              intro y hy e hye
              have : ∃ e, collectAxes rest = .error e := by
                rw [ih]; exact ⟨y, hy, e, hye⟩
              obtain ⟨e0, he0⟩ := this
              rw [he0] at hc
              cases hc

theorem dedup_all_eq {x : Dim} :
    ∀ (l : List Dim), l ≠ [] → (∀ y ∈ l, y = x) → l.dedup = [x]
  | [], h, _ => absurd rfl h
  | y :: ys, _, hall => by
      have hy : y = x := hall y (List.mem_cons_self _ _)
      subst hy
      by_cases hys : ys = []
      · subst hys; simp
      · have ih := dedup_all_eq ys hys (fun z hz => hall z (List.mem_cons_of_mem _ hz))
        have hmem : y ∈ ys := by
          obtain ⟨z, hz⟩ := List.exists_mem_of_ne_nil ys hys
          have hzx := hall z (List.mem_cons_of_mem _ hz)
          rw [← hzx]
          exact hz
        rw [List.dedup_cons_of_mem hmem, ih]

theorem array_map_axis_all_any (col : List Dim) (h : ∀ d ∈ col, d = Dim.any) :
    array_map_axis col = .ok Dim.any := by
  have hf : col.filter (fun d => d != Dim.any) = [] := by
    rw [List.filter_eq_nil_iff]
    intro a ha
    simp [h a ha]
  simp [array_map_axis, hf]

theorem array_map_axis_single (col : List Dim) (x : Dim) (hx : x ≠ Dim.any)
    (hmem : x ∈ col) (hall : ∀ y ∈ col, y = Dim.any ∨ y = x) :
    array_map_axis col = .ok x := by
  have hfilter : ∀ y ∈ col.filter (fun d => d != Dim.any), y = x := by
    intro y hy
    rw [List.mem_filter] at hy
    rcases hall y hy.1 with h | h
    · exact absurd h (by simpa using hy.2)
    · exact h
  have hxmem : x ∈ col.filter (fun d => d != Dim.any) :=
    List.mem_filter.mpr ⟨hmem, by simp [hx]⟩
  have hne : col.filter (fun d => d != Dim.any) ≠ [] := by
    intro hc
    rw [hc] at hxmem
    cases hxmem
  rw [array_map_axis, dedup_all_eq _ hne hfilter]

theorem array_map_axis_conflict (col : List Dim) (x y : Dim) (hx : x ≠ Dim.any)
    (hy : y ≠ Dim.any) (hxy : x ≠ y) (hxm : x ∈ col) (hym : y ∈ col) :
    ∃ e, array_map_axis col = .error e := by
  have hxf : x ∈ (col.filter (fun d => d != Dim.any)).dedup := by
    rw [List.mem_dedup, List.mem_filter]
    exact ⟨hxm, by simp [hx]⟩
  have hyf : y ∈ (col.filter (fun d => d != Dim.any)).dedup := by
    rw [List.mem_dedup, List.mem_filter]
    exact ⟨hym, by simp [hy]⟩
  rcases hd : (col.filter (fun d => d != Dim.any)).dedup with _ | ⟨a, _ | ⟨b, tl⟩⟩
  · rw [hd] at hxf; cases hxf
  · rw [hd] at hxf hyf
    rw [List.mem_singleton] at hxf hyf
    exact absurd (hxf.trans hyf.symm) hxy
  · exact ⟨.myiaShapeError "Expect same shapes for array_map", by rw [array_map_axis, hd]⟩

theorem array_map_axis_error (col : List Dim)
    (h : ∃ e, array_map_axis col = .error e) :
    ∃ x ∈ col, ∃ y ∈ col, x ≠ Dim.any ∧ y ≠ Dim.any ∧ x ≠ y := by
  obtain ⟨e, he⟩ := h
  rcases hd : (col.filter (fun d => d != Dim.any)).dedup with _ | ⟨a, _ | ⟨b, tl⟩⟩
  · rw [array_map_axis, hd] at he; cases he
  · rw [array_map_axis, hd] at he; cases he
  · have hnd : ((col.filter (fun d => d != Dim.any)).dedup).Nodup := List.nodup_dedup _
    rw [hd, List.nodup_cons] at hnd
    obtain ⟨hna, _⟩ := hnd
    have hab : a ≠ b := by
      intro hc
      exact hna (by rw [hc]; exact List.mem_cons_self _ _)
    have ham : a ∈ (col.filter (fun d => d != Dim.any)).dedup := by
      rw [hd]; exact List.mem_cons_self _ _
    have hbm : b ∈ (col.filter (fun d => d != Dim.any)).dedup := by
      rw [hd]; exact List.mem_cons_of_mem _ (List.mem_cons_self _ _)
    rw [List.mem_dedup, List.mem_filter] at ham hbm
    exact ⟨a, ham.1, b, hbm.1, by simpa using ham.2, by simpa using hbm.2, hab⟩

theorem array_map_axes_getD (shape0 : List Dim) (rest : List (List Dim))
    (i : Nat) (hi : i < shape0.length) :
    ((List.range shape0.length).map (fun i =>
        array_map_axis ((shape0 :: rest).map (fun s => s.getD i Dim.any)))).getD i
        (.ok Dim.any)
      = array_map_axis ((shape0 :: rest).map (fun s => s.getD i Dim.any)) := by
  have hl : i < ((List.range shape0.length).map (fun i =>
      array_map_axis ((shape0 :: rest).map (fun s => s.getD i Dim.any)))).length := by
    simpa using hi
  rw [List.getD_eq_getElem _ _ hl, List.getElem_map]
  simp

/-- Claim C8: the `array_map` shape rule fails when some operand's rank
differs from the first operand's; with equal ranks it fails exactly when some
axis carries two different concrete values across the operands, and on
success the result has the common rank and carries, per axis, `ANYTHING` when
all operands have `ANYTHING` there and the unique concrete value (ignoring
wildcards) otherwise — no implicit broadcasting. -/
theorem array_map_spec (shape0 : List Dim) (rest : List (List Dim)) :
    ((∃ s ∈ rest, s.length ≠ shape0.length) →
      ∃ e, infer_shape_array_map (shape0 :: rest) = .error e) ∧
    ((∀ s ∈ rest, s.length = shape0.length) →
      ((∃ i, i < shape0.length ∧
          ∃ x ∈ (shape0 :: rest).map (fun s => s.getD i Dim.any),
          ∃ y ∈ (shape0 :: rest).map (fun s => s.getD i Dim.any),
          x ≠ Dim.any ∧ y ≠ Dim.any ∧ x ≠ y) ↔
        (∃ e, infer_shape_array_map (shape0 :: rest) = .error e)) ∧
      (∀ r, infer_shape_array_map (shape0 :: rest) = .ok r →
        r.length = shape0.length ∧
        ∀ i, i < shape0.length →
          ((∀ d ∈ (shape0 :: rest).map (fun s => s.getD i Dim.any), d = Dim.any) →
            r.getD i Dim.any = Dim.any) ∧
          (∀ x, x ≠ Dim.any → x ∈ (shape0 :: rest).map (fun s => s.getD i Dim.any) →
            (∀ y ∈ (shape0 :: rest).map (fun s => s.getD i Dim.any),
              y = Dim.any ∨ y = x) →
            r.getD i Dim.any = x))) := by
  constructor
  · rintro ⟨s, hs, hlen⟩
    have hb : rest.any (fun s => s.length != shape0.length) = true := by
      rw [List.any_eq_true]
      exact ⟨s, hs, by simpa using hlen⟩
    exact ⟨.myiaShapeError "Expect same shapes for array_map",
      by simp [infer_shape_array_map, hb]⟩
  · intro hrk
    have hb : rest.any (fun s => s.length != shape0.length) = false := by
      rw [Bool.eq_false_iff]
      intro hc
      rw [List.any_eq_true] at hc
      obtain ⟨s, hs, hne⟩ := hc
      rw [bne_iff_ne] at hne
      exact hne (hrk s hs)
    have hdef : infer_shape_array_map (shape0 :: rest) =
        collectAxes ((List.range shape0.length).map (fun i =>
          array_map_axis ((shape0 :: rest).map (fun s => s.getD i Dim.any)))) := by
      simp [infer_shape_array_map, hb]
    constructor
    · constructor
      · rintro ⟨i, hi, x, hxm, y, hym, hx, hy, hxy⟩
        have haxis := array_map_axis_conflict _ x y hx hy hxy hxm hym
        rw [hdef, collectAxes_error_iff]
        refine ⟨array_map_axis ((shape0 :: rest).map (fun s => s.getD i Dim.any)),
          List.mem_map_of_mem _ (List.mem_range.mpr hi), haxis⟩
      · intro herr
        rw [hdef, collectAxes_error_iff] at herr
        obtain ⟨ax, haxm, he⟩ := herr
        obtain ⟨i, hi, rfl⟩ := List.mem_map.mp haxm
        rw [List.mem_range] at hi
        obtain ⟨x, hxm, y, hym, hx, hy, hxy⟩ := array_map_axis_error _ he
        exact ⟨i, hi, x, hxm, y, hym, hx, hy, hxy⟩
    · intro r hok
      rw [hdef] at hok
      have hlen := collectAxes_ok_length hok
      simp only [List.length_map, List.length_range] at hlen
      refine ⟨hlen, ?_⟩
      intro i hi
      have hax := collectAxes_ok_getD hok i (by simpa using hi)
      rw [array_map_axes_getD shape0 rest i hi] at hax
      constructor
      · intro hallany
        have := array_map_axis_all_any _ hallany
        rw [this] at hax
        exact (Except.ok.injEq _ _).mp hax.symm
      · intro x hx hxm hally
        have := array_map_axis_single _ x hx hxm hally
        rw [this] at hax
        exact (Except.ok.injEq _ _).mp hax.symm

/-- Claim C8, witness: operand shapes `(3, ANYTHING)` and `(3, 7)` share
their rank and carry at most one concrete value per axis, so `array_map`
succeeds; the result `(3, 7)` indeed holds the unique concrete value on both
axes. -/
theorem array_map_spec_witness :
    infer_shape_array_map [[Dim.conc 3, Dim.any], [Dim.conc 3, Dim.conc 7]]
        = .ok [Dim.conc 3, Dim.conc 7] ∧
    (∃ e, infer_shape_array_map [[Dim.conc 3], [Dim.conc 3, Dim.conc 4]] = .error e) := by
  constructor
  · decide
  · exact (array_map_spec [Dim.conc 3] [[Dim.conc 3, Dim.conc 4]]).1
      ⟨[Dim.conc 3, Dim.conc 4], by decide, by decide⟩

end Myia
